import Mathlib

/-!
Verification development for the QEMU assistant tool (single Python source
file).  We shallowly embed the program's pure core: Python strings are
`List Char`, the session store (`Session.save` / `Session.load`), the QEMU
command synthesizer (`build_command`), the resource import logic
(`import_resource`) and the snapshot/backing-chain operations
(`snapshot_ops`), the latter as an event-trace semantics over an abstract
filesystem.
-/

namespace QemuHelper

/-- Python strings are sequences of characters. -/
abbrev PyStr := List Char

/-- The double-quote character `"` (written via its code point to keep the
source free of tricky literals). -/
def dq : Char := Char.ofNat 34

/-- The single-quote character. -/
def sq : Char := Char.ofNat 39

/-- Newline character. -/
def nl : Char := Char.ofNat 10

/-- Model of the Python membership test `c in s` for a character. -/
def pyContains (c : Char) (s : PyStr) : Bool := s.any (· == c)

/-- Model of `s.split(sep, 1)`: characters before the first occurrence of
`sep`, and the remainder after it.  When `sep` does not occur the whole
string is the first component (callers guard with `pyContains`). -/
def splitFirst (sep : Char) : PyStr → PyStr × PyStr
  | [] => ([], [])
  | c :: rest =>
    if c = sep then ([], rest)
    else
      let p := splitFirst sep rest
      (c :: p.1, p.2)

/-- Python `str.isspace` on the ASCII whitespace characters relevant to
`str.strip()`. -/
def isPySpace (c : Char) : Bool :=
  c == ' ' || c == Char.ofNat 9 || c == nl || c == Char.ofNat 13 ||
  c == Char.ofNat 11 || c == Char.ofNat 12

/-- Model of Python `str.strip(chars)`: remove characters satisfying `p`
from both ends. -/
def pyStripSet (p : Char → Bool) (s : PyStr) : PyStr :=
  ((s.dropWhile p).reverse.dropWhile p).reverse

/-- Model of Python `str.strip()` (no argument: whitespace). -/
def pyStrip (s : PyStr) : PyStr := pyStripSet isPySpace s

/-- Model of Python `str.split(sep)` for a one-character separator. -/
def pySplitChar (sep : Char) : PyStr → List PyStr
  | [] => [[]]
  | c :: rest =>
    if c = sep then [] :: pySplitChar sep rest
    else
      match pySplitChar sep rest with
      | [] => [[c]]
      | a :: as => (c :: a) :: as

/-- Numeric value of an ASCII digit. -/
def digitVal? (c : Char) : Option Nat :=
  if c.isDigit then some (c.toNat - 48) else none

/-- Accumulate a decimal numeral; fails on any non-digit. -/
def pyDigitsAux : List Char → Nat → Option Nat
  | [], acc => some acc
  | c :: rest, acc =>
    match digitVal? c with
    | none => none
    | some d => pyDigitsAux rest (acc * 10 + d)

/-- A nonempty all-digit string read as a natural number. -/
def pyDigits? : List Char → Option Nat
  | [] => none
  | c :: rest => pyDigitsAux (c :: rest) 0

/-- Model of Python `int(s)` on ASCII input (surrounding whitespace
stripped, optional sign, decimal digits; anything else raises, modelled as
`none`).  Call sites feed it segments of a `split("_")`, which never
contain underscores, so Python's digit-group underscores need no model. -/
def pyInt? (s : PyStr) : Option Int :=
  let t := pyStripSet isPySpace s
  match t with
  | '+' :: rest => (pyDigits? rest).map Int.ofNat
  | '-' :: rest => (pyDigits? rest).map (fun n => -(n : Int))
  | _ => (pyDigits? t).map Int.ofNat

/-- Model of `os.path.join(a, b)` (POSIX rules). -/
def pathJoin (a b : PyStr) : PyStr :=
  if b.head? = some '/' then b
  else if a = [] ∨ a.getLast? = some '/' then a ++ b
  else a ++ '/' :: b

/-- Decimal rendering of a natural number, as used by Python f-strings. -/
def natChars (n : Nat) : PyStr := (toString n).toList

/-- Python dict assignment `m[k] = v`: overwrite in place or append. -/
def dictSet {α β : Type} [DecidableEq α] (k : α) (v : β) :
    List (α × β) → List (α × β)
  | [] => [(k, v)]
  | (k', v') :: rest =>
    if k' = k then (k, v) :: rest else (k', v') :: dictSet k v rest

/-- Python dict lookup `m.get(k)`. -/
def dictGet? {α β : Type} [DecidableEq α] (k : α) :
    List (α × β) → Option β
  | [] => none
  | (k', v') :: rest => if k' = k then some v' else dictGet? k rest

/-- Python `m.get(k, d)`. -/
def dictGetD {α β : Type} [DecidableEq α] (k : α) (m : List (α × β))
    (d : β) : β :=
  (dictGet? k m).getD d

/-- In-memory state of a `Session` object: scalar config (an
insertion-ordered dict), the ordered disk and ISO lists, and the
session-lifetime transient mounts. -/
structure SessionState where
  config : List (PyStr × PyStr)
  disks : List PyStr
  isos : List PyStr
  transient_mounts : List PyStr
deriving DecidableEq, Repr

/-- Accumulator used while parsing a config file in `Session.load`. -/
structure LoadState where
  config : List (PyStr × PyStr)
  disk_map : List (Int × PyStr)
  iso_map : List (Int × PyStr)
deriving DecidableEq, Repr

/-- One iteration of the `for line in f` loop of `Session.load`:
`if '=' in line`, split at the first `=`, strip quotes from the value, and
route `DISK_<i>` / `ISO_<i>` keys into index maps (skipping keys whose
index segment is not an integer), everything else into the scalar config. -/
def processLine (st : LoadState) (line : PyStr) : LoadState :=
  if pyContains '=' line then
    let kv := splitFirst '=' (pyStrip line)
    let key := kv.1
    let val := pyStripSet (· == sq) (pyStripSet (· == dq) kv.2)
    if "DISK_".toList.isPrefixOf key then
      match (pySplitChar '_' key)[1]? with
      | none => st
      | some seg =>
        match pyInt? seg with
        | none => st
        | some idx => { st with disk_map := dictSet idx val st.disk_map }
    else if "ISO_".toList.isPrefixOf key then
      match (pySplitChar '_' key)[1]? with
      | none => st
      | some seg =>
        match pyInt? seg with
        | none => st
        | some idx => { st with iso_map := dictSet idx val st.iso_map }
    else
      { st with config := dictSet key val st.config }
  else st

/-- Parse a whole config file (the loop body of `Session.load`).  Reading
the file line by line is modelled by splitting the content at newline
characters; the trailing empty segment produced by a final newline
contains no `=` and is skipped, like Python's final empty read. -/
def parseConfig (content : PyStr) : LoadState :=
  (pySplitChar nl content).foldl processLine ⟨[], [], []⟩

/-- `[m[i] for i in sorted(m.keys())]`. -/
def mapToList (m : List (Int × PyStr)) : List PyStr :=
  (List.insertionSort (· ≤ ·) (m.map Prod.fst)).map
    (fun i => (dictGet? i m).getD [])

/-- `Session.load`: returns unchanged state and `false` when the config
file does not exist, otherwise replaces `config`, `disks` and `isos` from
the parsed file content and returns `true`.  `transient_mounts` is not
touched by the source. -/
def Session.load (s : SessionState) (configExists : Bool)
    (content : PyStr) : SessionState × Bool :=
  if configExists then
    let st := parseConfig content
    ({ s with
        config := st.config
        disks := mapToList st.disk_map
        isos := mapToList st.iso_map }, true)
  else (s, false)

/-- One `KEY="VALUE"` line (with trailing newline) as written by
`Session.save`. -/
def confLine (k v : PyStr) : PyStr := k ++ ('=' :: (dq :: (v ++ [dq, nl])))

/-- `Session.save`: the full config-file content written to disk — scalar
config entries in insertion order, then `DISK_i`, then `ISO_i` lines. -/
def Session.save (s : SessionState) : PyStr :=
  let scalarLines := s.config.map (fun kv => confLine kv.1 kv.2)
  let diskLines := s.disks.enum.map
    (fun iv => confLine ("DISK_".toList ++ natChars iv.1) iv.2)
  let isoLines := s.isos.enum.map
    (fun iv => confLine ("ISO_".toList ++ natChars iv.1) iv.2)
  (scalarLines ++ diskLines ++ isoLines).flatten

/-- Abstract filesystem snapshot: the three path predicates used by the
command builder (`os.path.exists`, `os.path.isdir`, `os.path.isfile`). -/
structure FSModel where
  ex : PyStr → Bool
  isdir : PyStr → Bool
  isfile : PyStr → Bool

/-- The per-session paths computed in `Session.__init__`. -/
structure SessionPaths where
  dir : PyStr
  config_file : PyStr
  vars_file : PyStr
  shared_dir : PyStr
  iso_dir : PyStr
  disk_dir : PyStr

/-- `Session.__init__`: path layout `<save_root>/<name>/...`. -/
def sessionPaths (saveRoot name : PyStr) : SessionPaths :=
  let d := pathJoin saveRoot name
  { dir := d
    config_file := pathJoin d "config.conf".toList
    vars_file := pathJoin d "OVMF_VARS.fd".toList
    shared_dir := pathJoin d "shared".toList
    iso_dir := pathJoin d "isos".toList
    disk_dir := pathJoin d "disks".toList }

/-- The virtio-blk `-device` argument emitted for the disk at 0-based
position `i` of the disk list: serial `DISK_i`, boot index `i + 1`. -/
def virtioBlkDeviceStr (i : Nat) : PyStr :=
  "virtio-blk-pci,drive=drive_disk_".toList ++ natChars i
    ++ ",serial=DISK_".toList ++ natChars i
    ++ ",bootindex=".toList ++ natChars (i + 1)
    ++ ",iothread=io0".toList

/-- The `-drive` argument emitted for the disk at position `i`. -/
def diskDriveStr (i : Nat) (disk_path : PyStr) : PyStr :=
  "file=".toList ++ disk_path
    ++ ",format=qcow2,if=none,id=drive_disk_".toList ++ natChars i
    ++ ",cache=writeback".toList

/-- The per-disk loop of `build_command` (`for i, disk in
enumerate(self.disks)`), carrying the running index `i`: an existing disk
file contributes a drive/device pair, a missing one only a warning. -/
def diskArgs (disk_dir : PyStr) (fs : FSModel) : Nat → List PyStr → List PyStr
  | _, [] => []
  | i, disk :: rest =>
    (if fs.ex (pathJoin disk_dir disk) then
      ["-drive".toList, diskDriveStr i (pathJoin disk_dir disk),
       "-device".toList, virtioBlkDeviceStr i]
    else []) ++ diskArgs disk_dir fs (i + 1) rest

/-- The per-ISO loop of `build_command` (the enumerate index is unused by
the emitted strings): an existing ISO contributes a CD-ROM drive. -/
def isoArgs (iso_dir : PyStr) (fs : FSModel) : List PyStr → List PyStr
  | [] => []
  | iso :: rest =>
    (if fs.ex (pathJoin iso_dir iso) then
      ["-drive".toList,
       "file=".toList ++ pathJoin iso_dir iso
         ++ ",media=cdrom,readonly=on".toList]
    else []) ++ isoArgs iso_dir fs rest

/-- The always-present default shared-folder VVFAT drive/device pair. -/
def sharedArgs (shared_dir : PyStr) : List PyStr :=
  ["-drive".toList,
   "file=fat:ro:".toList ++ shared_dir
     ++ ",format=raw,if=none,id=drive_shared,readonly=on".toList,
   "-device".toList,
   "usb-storage,drive=drive_shared,serial=SHARED_AUTO,removable=on".toList]

/-- The transient-mount loop of `build_command`: a directory mounts as a
read-only VVFAT drive, a regular file as a raw read-only drive, anything
else is skipped; each gets a USB storage device with serial `TRANS_i`. -/
def transientArgs (fs : FSModel) : Nat → List PyStr → List PyStr
  | _, [] => []
  | i, path :: rest =>
    (if fs.isdir path then
      ["-drive".toList,
       "file=fat:ro:".toList ++ path
         ++ ",format=raw,if=none,id=drive_trans_".toList ++ natChars i
         ++ ",readonly=on".toList,
       "-device".toList,
       "usb-storage,drive=drive_trans_".toList ++ natChars i
         ++ ",serial=TRANS_".toList ++ natChars i
         ++ ",removable=on".toList]
    else if fs.isfile path then
      ["-drive".toList,
       "file=".toList ++ path
         ++ ",format=raw,if=none,id=drive_trans_".toList ++ natChars i
         ++ ",readonly=on".toList,
       "-device".toList,
       "usb-storage,drive=drive_trans_".toList ++ natChars i
         ++ ",serial=TRANS_".toList ++ natChars i
         ++ ",removable=on".toList]
    else []) ++ transientArgs fs (i + 1) rest

/-- `QEMURunner.build_command`: the fixed preamble (machine, CPU, memory,
firmware pflash pair, virtio device set, USB, graphics, audio, network)
followed by the per-disk, per-ISO, shared-folder and transient-mount
sections, in source order. -/
def build_command (p : SessionPaths) (s : SessionState) (ovmf_code : PyStr)
    (fs : FSModel) : List PyStr :=
  ["qemu-system-x86_64".toList,
   "-name".toList, dictGetD "VM_NAME".toList s.config "unknown".toList,
   "-machine".toList, "q35".toList, "-accel".toList, "kvm".toList,
   "-object".toList, "iothread,id=io0".toList,
   "-cpu".toList,
   ("host,hv_relaxed,hv_spinlocks=0x1fff,hv_vapic,hv_time,hv_synic,"
     ++ "hv_stimer,hv_reset,hv_vpindex,hv_runtime,hv_frequencies").toList,
   "-m".toList, dictGetD "MEM_SIZE".toList s.config "4G".toList,
   "-smp".toList, dictGetD "CPU_CORES".toList s.config "2".toList,
   "-drive".toList,
   "if=pflash,format=raw,readonly=on,file=".toList ++ ovmf_code,
   "-drive".toList, "if=pflash,format=raw,file=".toList ++ p.vars_file,
   "-device".toList, "virtio-balloon-pci".toList,
   "-device".toList, "virtio-rng-pci".toList,
   "-device".toList, "virtio-serial-pci".toList,
   "-device".toList, "virtio-keyboard-pci".toList,
   "-device".toList, "virtio-tablet-pci".toList,
   "-device".toList, "qemu-xhci,id=usb".toList,
   "-device".toList, "usb-tablet".toList,
   "-device".toList, "usb-kbd".toList,
   "-device".toList, "virtio-vga-gl".toList,
   "-display".toList, "gtk,gl=on,zoom-to-fit=on".toList,
   "-device".toList, "intel-hda".toList,
   "-device".toList, "hda-duplex".toList,
   "-device".toList, "virtio-net-pci,netdev=net0,mq=on".toList,
   "-netdev".toList, "user,id=net0".toList]
  ++ diskArgs p.disk_dir fs 0 s.disks
  ++ isoArgs p.iso_dir fs s.isos
  ++ sharedArgs p.shared_dir
  ++ transientArgs fs 0 s.transient_mounts

/-- The virtio-blk device entries of an argument vector: the arguments
that immediately follow a `-device` flag and name a `virtio-blk-pci`
device. -/
def virtioBlkDevices : List PyStr → List PyStr
  | a :: b :: rest =>
    (if a = "-device".toList ∧ "virtio-blk-pci,".toList.isPrefixOf b
      then [b] else [])
      ++ virtioBlkDevices (b :: rest)
  | _ => []

/-! ### Disk metadata inspection and snapshot operations -/

/-- The JSON object returned by `qemu-img info --output=json`, as the
dictionary the source reads (`'backing-filename' in info`). -/
abbrev QDiskInfo := List (PyStr × PyStr)

/-- `Session.get_disk_info`: `None` when the disk file does not exist;
otherwise the inspector's outcome (`inspect` models the
`qemu-img info` subprocess plus JSON decoding, whose failures the
source's `try/except` turns into `None`). -/
def get_disk_info (fs : PyStr → Bool)
    (inspect : PyStr → Option QDiskInfo)
    (disk_dir disk_name : PyStr) : Option QDiskInfo :=
  let path := pathJoin disk_dir disk_name
  if fs path then inspect path else none

/-- Filesystem/config events performed by the snapshot operations, in
program order.  File names are relative to the session's disk directory,
where all the snapshot file operations take place (`os.remove` is called
on `disk_dir/<name>`, `qemu-img create` runs with `cwd=disk_dir`). -/
inductive Ev where
  | remove (name : PyStr)
  | imgCreateBacked (backing name : PyStr)
  | imgCommit (name : PyStr)
  | save (disks : List PyStr)
deriving DecidableEq, Repr

/-- Result of a snapshot operation: the session's disk list afterwards and
the events performed. -/
structure OpResult where
  disks : List PyStr
  events : List Ev
deriving DecidableEq, Repr

/-- `os.path.splitext(p)[0]` (POSIX): cut at the last dot of the final
path component, unless every character of that component before the dot is
itself a dot. -/
def splitext_root (p : PyStr) : PyStr :=
  let sepIdx : Int := match (p.reverse.findIdx? (· = '/')) with
    | some k => (p.length : Int) - 1 - k
    | none => -1
  let dotIdx : Int := match (p.reverse.findIdx? (· = '.')) with
    | some k => (p.length : Int) - 1 - k
    | none => -1
  if sepIdx < dotIdx then
    if (((p.drop (sepIdx + 1).toNat).take (dotIdx - sepIdx - 1).toNat).any
        (· ≠ '.')) then
      p.take dotIdx.toNat
    else p
  else p

/-- `Session.snapshot_ops` on a selected disk, as a pure transition.
Inputs mirror the source: the disk list and the selected index and name,
the `get_disk_info` outcome, the operation character typed by the user and
their confirmation answer, plus the existence predicate used for the
backing-file and overlay-target checks.  External `qemu-img` / `os.remove`
calls are modelled on their success path; the returned events record the
actions in program order (a `save` event persists the disk list shown). -/
def snapshot_ops (fs : PyStr → Bool) (disk_dir : PyStr)
    (disks : List PyStr) (idx : Nat) (disk_name : PyStr)
    (info : Option QDiskInfo) (op : Char) (confirm : Bool) : OpResult :=
  match info with
  | none => ⟨disks, []⟩
  | some inf =>
    match dictGet? "backing-filename".toList inf with
    | some backing =>
      if op = 'r' then
        if confirm then
          ⟨disks, [.remove disk_name, .imgCreateBacked backing disk_name]⟩
        else ⟨disks, []⟩
      else if op = 'c' then
        if confirm then ⟨disks, [.imgCommit disk_name]⟩ else ⟨disks, []⟩
      else if op = 'd' then
        if confirm then
          if fs (pathJoin disk_dir backing) then
            let newDisks := disks.set idx backing
            ⟨newDisks, [.save newDisks, .remove disk_name]⟩
          else ⟨disks, []⟩
        else ⟨disks, []⟩
      else ⟨disks, []⟩
    | none =>
      if op = 'c' then
        let overlay_name := splitext_root disk_name ++ ".snap.qcow2".toList
        if fs (pathJoin disk_dir overlay_name) then ⟨disks, []⟩
        else
          let newDisks := disks.set idx overlay_name
          ⟨newDisks, [.imgCreateBacked disk_name overlay_name,
                      .save newDisks]⟩
      else ⟨disks, []⟩

/-- Abstract world the snapshot events act on: the set of files present in
the disk directory and the disk list currently persisted in the config
file. -/
structure World where
  files : List PyStr
  saved : List PyStr
deriving DecidableEq, Repr

/-- Effect of one event on the world. -/
def stepW (w : World) (e : Ev) : World :=
  match e with
  | .remove n => { w with files := w.files.erase n }
  | .imgCreateBacked _ n => { w with files := n :: w.files }
  | .imgCommit _ => w
  | .save ds => { w with saved := ds }

/-- Effect of an event sequence. -/
def applyEvents (w : World) (evs : List Ev) : World := evs.foldl stepW w

/-- The persisted config references only files that exist in the disk
directory. -/
def okW (w : World) : Prop := ∀ d ∈ w.saved, d ∈ w.files

instance (w : World) : Decidable (okW w) := by
  unfold okW; infer_instance

/-! ### Resource import -/

/-- Outcome of `Session.import_resource`: the returned filename (if any)
and whether a file copy into the resource directory succeeded. -/
structure ImportOutcome where
  result : Option PyStr
  copied : Bool
deriving DecidableEq, Repr

/-- `os.path.basename` (POSIX): the part after the last slash. -/
def basename (p : PyStr) : PyStr :=
  (p.reverse.takeWhile (· ≠ '/')).reverse

/-- `Session.import_resource`: empty or missing source → no result; a name
collision at the destination asks for overwrite confirmation and, on
decline, returns the filename **without copying**; otherwise the copy is
attempted (`copyOk` models `shutil.copy2` success) and the filename is
returned only on success.  `expand` models `FS.expand_path`. -/
def import_resource (expand : PyStr → PyStr) (fs : PyStr → Bool)
    (src_path target_dir : PyStr) (overwriteYes copyOk : Bool) :
    ImportOutcome :=
  if src_path = [] then ⟨none, false⟩
  else
    let src := expand src_path
    if fs src then
      let filename := basename src
      let dest := pathJoin target_dir filename
      if fs dest ∧ ¬ overwriteYes then ⟨some filename, false⟩
      else if copyOk then ⟨some filename, true⟩ else ⟨none, false⟩
    else ⟨none, false⟩

/-- The `[I] Import` branch of `Session.manage_disk`: append the returned
filename (when any) to the disk list and save. -/
def manage_disk_import (s : SessionState) (p : SessionPaths)
    (expand : PyStr → PyStr) (fs : PyStr → Bool) (src_path : PyStr)
    (overwriteYes copyOk : Bool) : SessionState × ImportOutcome :=
  let o := import_resource expand fs src_path p.disk_dir overwriteYes copyOk
  match o.result with
  | some name => ({ s with disks := s.disks ++ [name] }, o)
  | none => (s, o)

/-- The `[I] Import` branch of `Session.manage_cdrom`: append the returned
filename (when any) to the ISO list and save. -/
def manage_cdrom_import (s : SessionState) (p : SessionPaths)
    (expand : PyStr → PyStr) (fs : PyStr → Bool) (src_path : PyStr)
    (overwriteYes copyOk : Bool) : SessionState × ImportOutcome :=
  let o := import_resource expand fs src_path p.iso_dir overwriteYes copyOk
  match o.result with
  | some name => ({ s with isos := s.isos ++ [name] }, o)
  | none => (s, o)

/-! ### Lemmas about the virtio-blk device extraction -/

theorem cons_ne_of_head {a b : Char} {l l' : List Char} (h : ¬ a = b) :
    a :: l ≠ b :: l' := by
  intro he
  injection he with h1 _
  exact h h1

theorem isPrefixOf_cons_ne (a b : Char) (l l' : List Char) (h : ¬ a = b) :
    List.isPrefixOf (a :: l) (b :: l') = false := by
  simp [List.isPrefixOf, h]

theorem isPrefixOf_of_append (p q r : List Char)
    (h : List.isPrefixOf p q = true) :
    List.isPrefixOf p (q ++ r) = true := by
  induction p generalizing q with
  | nil => simp [List.isPrefixOf]
  | cons a as ih =>
    cases q with
    | nil => simp [List.isPrefixOf] at h
    | cons b bs =>
      simp only [List.isPrefixOf, Bool.and_eq_true, List.cons_append] at h ⊢
      exact ⟨h.1, ih bs h.2⟩

theorem vbds_cons_of_ne_device (a : PyStr) (L : List PyStr)
    (h : a ≠ "-device".toList) :
    virtioBlkDevices (a :: L) = virtioBlkDevices L := by
  cases L with
  | nil => rfl
  | cons b l =>
    simp only [virtioBlkDevices]
    split
    · rename_i hc
      exact absurd hc.1 h
    · exact List.nil_append _

theorem vbds_skip_pair (a b : PyStr) (L : List PyStr)
    (h : "virtio-blk-pci,".toList.isPrefixOf b = false) :
    virtioBlkDevices (a :: b :: L) = virtioBlkDevices (b :: L) := by
  simp only [virtioBlkDevices]
  split
  · rename_i hc
    rw [h] at hc
    exact Bool.noConfusion hc.2
  · exact List.nil_append _

theorem vbds_hit (b : PyStr) (L : List PyStr)
    (h : "virtio-blk-pci,".toList.isPrefixOf b = true) :
    virtioBlkDevices ("-device".toList :: b :: L)
      = b :: virtioBlkDevices (b :: L) := by
  simp only [virtioBlkDevices]
  split
  · rfl
  · rename_i hc
    exact absurd ⟨by trivial, h⟩ hc

theorem diskDriveStr_ne_device (i : Nat) (path : PyStr) :
    diskDriveStr i path ≠ "-device".toList :=
  cons_ne_of_head (by decide)

theorem virtioBlkDeviceStr_ne_device (i : Nat) :
    virtioBlkDeviceStr i ≠ "-device".toList :=
  cons_ne_of_head (by decide)

theorem vb_isPrefixOf_deviceStr (i : Nat) :
    "virtio-blk-pci,".toList.isPrefixOf (virtioBlkDeviceStr i) = true := by
  unfold virtioBlkDeviceStr
  simp only [List.append_assoc]
  exact isPrefixOf_of_append _ _ _ (by decide)

theorem vbds_cons_file (x : PyStr) (L : List PyStr) :
    virtioBlkDevices (("file=".toList ++ x) :: L) = virtioBlkDevices L :=
  vbds_cons_of_ne_device _ _ (cons_ne_of_head (by decide))

theorem vbds_cons_fat (x : PyStr) (L : List PyStr) :
    virtioBlkDevices (("file=fat:ro:".toList ++ x) :: L)
      = virtioBlkDevices L :=
  vbds_cons_of_ne_device _ _ (cons_ne_of_head (by decide))

theorem vbds_cons_usb (x : PyStr) (L : List PyStr) :
    virtioBlkDevices (("usb-storage,drive=drive_trans_".toList ++ x) :: L)
      = virtioBlkDevices L :=
  vbds_cons_of_ne_device _ _ (cons_ne_of_head (by decide))

theorem vbds_devpair_usb (a x : PyStr) (L : List PyStr) :
    virtioBlkDevices
        (a :: ("usb-storage,drive=drive_trans_".toList ++ x) :: L)
      = virtioBlkDevices
          (("usb-storage,drive=drive_trans_".toList ++ x) :: L) :=
  vbds_skip_pair _ _ _ (isPrefixOf_cons_ne _ _ _ _ (by decide))

theorem vbds_cons_pflash1 (x : PyStr) (L : List PyStr) :
    virtioBlkDevices
        (("if=pflash,format=raw,readonly=on,file=".toList ++ x) :: L)
      = virtioBlkDevices L :=
  vbds_cons_of_ne_device _ _ (cons_ne_of_head (by decide))

theorem vbds_cons_pflash2 (x : PyStr) (L : List PyStr) :
    virtioBlkDevices (("if=pflash,format=raw,file=".toList ++ x) :: L)
      = virtioBlkDevices L :=
  vbds_cons_of_ne_device _ _ (cons_ne_of_head (by decide))

theorem vbds_diskArgs (disk_dir : PyStr) (fs : FSModel) (l : List PyStr)
    (n : Nat) (T : List PyStr) :
    virtioBlkDevices (diskArgs disk_dir fs n l ++ T)
      = ((List.enumFrom n l).filter
          (fun iv => fs.ex (pathJoin disk_dir iv.2))).map
          (fun iv => virtioBlkDeviceStr iv.1)
        ++ virtioBlkDevices T := by
  induction l generalizing n with
  | nil => simp [diskArgs, List.enumFrom]
  | cons d rest ih =>
    cases hex : fs.ex (pathJoin disk_dir d) with
    | false =>
      simp only [diskArgs]
      rw [if_neg (by simp [hex]), List.nil_append, ih]
      simp [List.enumFrom, List.filter_cons, hex]
    | true =>
      simp only [diskArgs]
      rw [if_pos hex]
      simp only [List.cons_append, List.nil_append, List.append_assoc]
      rw [vbds_cons_of_ne_device _ _ (by decide)]
      rw [vbds_cons_of_ne_device _ _ (diskDriveStr_ne_device n _)]
      rw [vbds_hit _ _ (vb_isPrefixOf_deviceStr n)]
      rw [vbds_cons_of_ne_device _ _ (virtioBlkDeviceStr_ne_device n)]
      rw [ih]
      simp [List.enumFrom, List.filter_cons, hex]

theorem vbds_isoArgs (iso_dir : PyStr) (fs : FSModel) (l : List PyStr)
    (T : List PyStr) :
    virtioBlkDevices (isoArgs iso_dir fs l ++ T) = virtioBlkDevices T := by
  induction l with
  | nil => simp [isoArgs]
  | cons iso rest ih =>
    cases hex : fs.ex (pathJoin iso_dir iso) with
    | false =>
      simp only [isoArgs]
      rw [if_neg (by simp [hex]), List.nil_append]
      exact ih
    | true =>
      simp only [isoArgs]
      rw [if_pos hex]
      simp only [List.cons_append, List.nil_append, List.append_assoc]
      rw [vbds_cons_of_ne_device _ _ (by decide)]
      rw [vbds_cons_file]
      exact ih

theorem vbds_sharedArgs (shared_dir : PyStr) (T : List PyStr) :
    virtioBlkDevices (sharedArgs shared_dir ++ T) = virtioBlkDevices T := by
  simp only [sharedArgs, List.cons_append, List.nil_append,
    List.append_assoc]
  rw [vbds_cons_of_ne_device _ _ (by decide)]
  rw [vbds_cons_fat]
  rw [vbds_skip_pair _ _ _ (by decide)]
  rw [vbds_cons_of_ne_device _ _ (by decide)]

theorem vbds_transientArgs (fs : FSModel) (l : List PyStr) (n : Nat) :
    virtioBlkDevices (transientArgs fs n l) = [] := by
  induction l generalizing n with
  | nil => rfl
  | cons p rest ih =>
    cases hdir : fs.isdir p with
    | true =>
      simp only [transientArgs]
      rw [if_pos hdir]
      simp only [List.cons_append, List.nil_append, List.append_assoc]
      rw [vbds_cons_of_ne_device _ _ (by decide)]
      rw [vbds_cons_fat]
      rw [vbds_devpair_usb]
      rw [vbds_cons_usb]
      exact ih _
    | false =>
      cases hfile : fs.isfile p with
      | false =>
        simp only [transientArgs]
        rw [if_neg (by simp [hdir]), if_neg (by simp [hfile]),
          List.nil_append]
        exact ih _
      | true =>
        simp only [transientArgs]
        rw [if_neg (by simp [hdir]), if_pos hfile]
        simp only [List.cons_append, List.nil_append, List.append_assoc]
        rw [vbds_cons_of_ne_device _ _ (by decide)]
        rw [vbds_cons_file]
        rw [vbds_devpair_usb]
        rw [vbds_cons_usb]
        exact ih _

/-! ### String lemmas for the save/load round trip -/

theorem pySplitChar_ne_nil (sep : Char) (s : PyStr) :
    pySplitChar sep s ≠ [] := by
  induction s with
  | nil => simp [pySplitChar]
  | cons x xs ih =>
    simp only [pySplitChar]
    split
    · simp
    · split
      · simp
      · simp

theorem pySplitChar_append_sep (sep : Char) (a b : PyStr)
    (ha : ∀ x ∈ a, ¬ x = sep) :
    pySplitChar sep (a ++ sep :: b) = a :: pySplitChar sep b := by
  induction a with
  | nil => simp [pySplitChar]
  | cons x xs ih =>
    have hx : ¬ x = sep := ha x (by simp)
    have ih' := ih (fun y hy => ha y (by simp [hy]))
    rw [List.cons_append]
    simp only [pySplitChar]
    rw [if_neg hx, ih']

theorem pySplitChar_no_sep (sep : Char) (a : PyStr)
    (ha : ∀ x ∈ a, ¬ x = sep) :
    pySplitChar sep a = [a] := by
  induction a with
  | nil => rfl
  | cons x xs ih =>
    have hx : ¬ x = sep := ha x (by simp)
    have ih' := ih (fun y hy => ha y (by simp [hy]))
    simp only [pySplitChar]
    rw [if_neg hx, ih']

theorem splitFirst_append (k r : PyStr) (hk : ∀ x ∈ k, ¬ x = '=') :
    splitFirst '=' (k ++ '=' :: r) = (k, r) := by
  induction k with
  | nil => simp [splitFirst]
  | cons x xs ih =>
    have hx : ¬ x = '=' := hk x (by simp)
    have ih' := ih (fun y hy => hk y (by simp [hy]))
    rw [List.cons_append]
    simp only [splitFirst]
    rw [if_neg hx, ih']

theorem pyContains_append_sep (k r : PyStr) :
    pyContains '=' (k ++ '=' :: r) = true := by
  simp [pyContains]

theorem dropWhile_eq_self_of_head (p : Char → Bool) (l : PyStr)
    (h : ∀ a, l.head? = some a → p a = false) :
    l.dropWhile p = l := by
  cases l with
  | nil => rfl
  | cons x xs =>
    rw [List.dropWhile_cons, if_neg (by simp [h x rfl])]

theorem pyStripSet_eq_self (p : Char → Bool) (l : PyStr)
    (h1 : ∀ a, l.head? = some a → p a = false)
    (h2 : ∀ a, l.getLast? = some a → p a = false) :
    pyStripSet p l = l := by
  unfold pyStripSet
  rw [dropWhile_eq_self_of_head p l h1]
  rw [dropWhile_eq_self_of_head p l.reverse
    (fun a ha => h2 a (by rwa [List.head?_reverse] at ha))]
  exact List.reverse_reverse l

theorem pyStripSet_wrap (p : Char → Bool) (q : Char) (v : PyStr)
    (hq : p q = true) (hv : ∀ x ∈ v, p x = false) :
    pyStripSet p (q :: (v ++ [q])) = v := by
  unfold pyStripSet
  rw [List.dropWhile_cons, if_pos (by simp [hq])]
  cases v with
  | nil => simp [hq]
  | cons x xs =>
    have hx : p x = false := hv x (by simp)
    rw [List.cons_append, List.dropWhile_cons, if_neg (by simp [hx])]
    have hrev : (x :: (xs ++ [q])).reverse = q :: (xs.reverse ++ [x]) := by
      simp
    rw [hrev, List.dropWhile_cons, if_pos (by simp [hq])]
    have hall : ∀ y ∈ xs.reverse ++ [x], p y = false := by
      intro y hy
      rcases List.mem_append.1 hy with h | h
      · exact hv y (by simp [List.mem_reverse.1 h])
      · rw [List.mem_singleton.1 h]
        exact hx
    rw [dropWhile_eq_self_of_head p _
      (fun a ha => hall a (List.mem_of_mem_head? ha))]
    simp

theorem pySplit_confLine (k v rest : PyStr)
    (hk : ∀ x ∈ k, ¬ x = nl) (hv : ∀ x ∈ v, ¬ x = nl) :
    pySplitChar nl (confLine k v ++ rest)
      = (k ++ ('=' :: (dq :: (v ++ [dq])))) :: pySplitChar nl rest := by
  have hshape : confLine k v ++ rest
      = (k ++ ('=' :: (dq :: (v ++ [dq])))) ++ nl :: rest := by
    simp [confLine]
  rw [hshape]
  apply pySplitChar_append_sep
  intro x hx
  simp only [List.mem_append, List.mem_cons, List.mem_singleton,
    List.not_mem_nil, or_false] at hx
  rcases hx with h | h | h | h | h
  · exact hk x h
  · subst h; decide
  · subst h; decide
  · exact hv x h
  · subst h; decide

theorem pySplit_confLine_last (k v : PyStr)
    (hk : ∀ x ∈ k, ¬ x = nl) (hv : ∀ x ∈ v, ¬ x = nl) :
    pySplitChar nl (confLine k v)
      = [k ++ ('=' :: (dq :: (v ++ [dq]))), []] := by
  have h := pySplit_confLine k v [] hk hv
  rwa [List.append_nil] at h

theorem processLine_nil (st : LoadState) : processLine st [] = st := rfl

theorem processLine_scalar (st : LoadState) (key v : PyStr)
    (hkey_eq : ∀ x ∈ key, ¬ x = '=')
    (hkey_sp : ∀ a, key.head? = some a → isPySpace a = false)
    (hkey_disk : "DISK_".toList.isPrefixOf key = false)
    (hkey_iso : "ISO_".toList.isPrefixOf key = false)
    (hv_dq : ∀ x ∈ v, ¬ x = dq)
    (hv_sq1 : ∀ a, v.head? = some a → ¬ a = sq)
    (hv_sq2 : ∀ a, v.getLast? = some a → ¬ a = sq) :
    processLine st (key ++ ('=' :: (dq :: (v ++ [dq]))))
      = { st with config := dictSet key v st.config } := by
  have hcont := pyContains_append_sep key (dq :: (v ++ [dq]))
  have hstrip : pyStrip (key ++ ('=' :: (dq :: (v ++ [dq]))))
      = key ++ ('=' :: (dq :: (v ++ [dq]))) := by
    apply pyStripSet_eq_self
    · intro a ha
      cases key with
      | nil =>
        simp only [List.nil_append, List.head?_cons, Option.some.injEq]
          at ha
        subst ha; decide
      | cons k0 ks =>
        simp only [List.cons_append, List.head?_cons, Option.some.injEq]
          at ha
        exact hkey_sp a (by simp [ha])
    · intro a ha
      have hshape : key ++ ('=' :: (dq :: (v ++ [dq])))
          = (key ++ ('=' :: (dq :: v))) ++ [dq] := by simp
      rw [hshape, List.getLast?_concat] at ha
      injection ha with ha
      subst ha; decide
  have hsplit := splitFirst_append key (dq :: (v ++ [dq])) hkey_eq
  have hwrap : pyStripSet (· == dq) (dq :: (v ++ [dq])) = v := by
    apply pyStripSet_wrap
    · simp
    · intro x hx
      simp [hv_dq x hx]
  have hsq : pyStripSet (· == sq) v = v := by
    apply pyStripSet_eq_self
    · intro a ha
      simp [hv_sq1 a ha]
    · intro a ha
      simp [hv_sq2 a ha]
  simp only [processLine]
  rw [hcont, if_pos rfl, hstrip, hsplit]
  simp only []
  rw [hwrap, hsq, hkey_disk, hkey_iso]
  simp

/-! ### Dictionary lemmas -/

theorem dictGet?_dictSet_self {α β : Type} [DecidableEq α] (k : α) (v : β)
    (m : List (α × β)) : dictGet? k (dictSet k v m) = some v := by
  induction m with
  | nil => simp [dictSet, dictGet?]
  | cons hd tl ih =>
    by_cases h : hd.1 = k
    · simp [dictSet, dictGet?, h]
    · simpa [dictSet, dictGet?, h] using ih

theorem foldl_processLine_disk_untouched (i : Int) (ls : List PyStr)
    (h : ∀ l ∈ ls, ∀ st' : LoadState,
      dictGet? i (processLine st' l).disk_map = dictGet? i st'.disk_map) :
    ∀ st₀ : LoadState,
      dictGet? i (ls.foldl processLine st₀).disk_map
        = dictGet? i st₀.disk_map := by
  induction ls with
  | nil => intro st₀; rfl
  | cons hd tl ih =>
    intro st₀
    have hhd := h hd (by simp)
    have htl : ∀ l ∈ tl, ∀ st' : LoadState,
        dictGet? i (processLine st' l).disk_map
          = dictGet? i st'.disk_map := by
      intro l hl; exact h l (by simp [hl])
    simpa [hhd st₀] using ih htl (processLine st₀ hd)

/-! ### Claim theorems: session store -/

/-- Claim C10: `Session.load` never touches `transient_mounts`, in both
the found and not-found branches, so transient mounts added before a
re-load survive it. -/
theorem load_preserves_transient_mounts (s : SessionState)
    (configExists : Bool) (content : PyStr) :
    (Session.load s configExists content).1.transient_mounts
      = s.transient_mounts := by
  cases configExists <;> rfl

/-- Claim C7: the disks list produced by `Session.load` enumerates the
`DISK_<i>` values in increasing numeric-index order — in general the list
is a map over a `≤`-sorted key sequence, and on the concrete out-of-order
file `DISK_1="b.qcow2"` before `DISK_0="a.qcow2"` the result is
`["a.qcow2", "b.qcow2"]`. -/
theorem load_disks_index_sorted :
    (∀ (s : SessionState) (content : PyStr),
      ∃ ks : List Int, List.Sorted (· ≤ ·) ks ∧
        (Session.load s true content).1.disks
          = ks.map (fun i =>
              (dictGet? i (parseConfig content).disk_map).getD []))
    ∧ (Session.load ⟨[], [], [], []⟩ true
        "DISK_1=\"b.qcow2\"\nDISK_0=\"a.qcow2\"\n".toList).1.disks
        = ["a.qcow2".toList, "b.qcow2".toList] := by
  constructor
  · intro s content
    exact ⟨List.insertionSort (· ≤ ·)
        ((parseConfig content).disk_map.map Prod.fst),
      List.sorted_insertionSort _ _, rfl⟩
  · decide

/-- Claim C9: when several lines assign the same `DISK_<i>` index, the
value of the last such line wins — in general, if `dline` assigns index
`i` and no later line touches index `i`, the parsed disk map sends `i` to
`dline`'s value; concretely, a file with duplicate `DISK_0` and `ISO_0`
lines loads the later value of each. -/
theorem load_duplicate_index_last_wins :
    (∀ (st : LoadState) (ls₁ : List PyStr) (dline : PyStr)
        (ls₂ : List PyStr) (i : Int) (v : PyStr),
      (∀ st' : LoadState,
        (processLine st' dline).disk_map = dictSet i v st'.disk_map) →
      (∀ l ∈ ls₂, ∀ st' : LoadState,
        dictGet? i (processLine st' l).disk_map
          = dictGet? i st'.disk_map) →
      dictGet? i ((ls₁ ++ dline :: ls₂).foldl processLine st).disk_map
        = some v)
    ∧ (Session.load ⟨[], [], [], []⟩ true
        ("DISK_0=\"a.qcow2\"\nDISK_0=\"b.qcow2\"\n"
          ++ "ISO_0=\"x.iso\"\nISO_0=\"y.iso\"\n").toList).1
        = ⟨[], ["b.qcow2".toList], ["y.iso".toList], []⟩ := by
  constructor
  · intro st ls₁ dline ls₂ i v h1 h2
    rw [List.foldl_append, List.foldl_cons,
      foldl_processLine_disk_untouched i ls₂ h2, h1,
      dictGet?_dictSet_self]
  · decide

/-- Witness for claim C9's theorem at a concrete duplicate `DISK_0`
file: the parse of `[DISK_0="a.qcow2", DISK_0="b.qcow2"]` maps index 0 to
`b.qcow2`. -/
theorem load_duplicate_index_last_wins_witness :
    dictGet? (0 : Int)
      ((["DISK_0=\"a.qcow2\"".toList, "DISK_0=\"b.qcow2\"".toList]).foldl
        processLine ⟨[], [], []⟩).disk_map = some "b.qcow2".toList := by
  have h := load_duplicate_index_last_wins.1 ⟨[], [], []⟩
    ["DISK_0=\"a.qcow2\"".toList] "DISK_0=\"b.qcow2\"".toList [] 0
    "b.qcow2".toList (by intro st'; rfl) (by intro l hl; cases hl)
  simpa using h

/-! ### Claim theorems: snapshot operations -/

/-- Claim C4: a confirmed Discard on an overlay refuses (no events, disk
list unchanged) when the backing file is absent from the disk directory;
when the backing file is present it repoints the disk-list slot to the
backing name and persists that list **before** the overlay file is
removed. -/
theorem discard_repoints_before_delete (fs : PyStr → Bool)
    (disk_dir : PyStr) (disks : List PyStr) (idx : Nat)
    (disk_name backing : PyStr) (inf : QDiskInfo)
    (hb : dictGet? "backing-filename".toList inf = some backing) :
    (fs (pathJoin disk_dir backing) = false →
      snapshot_ops fs disk_dir disks idx disk_name (some inf) 'd' true
        = ⟨disks, []⟩)
    ∧ (fs (pathJoin disk_dir backing) = true →
      snapshot_ops fs disk_dir disks idx disk_name (some inf) 'd' true
        = ⟨disks.set idx backing,
           [.save (disks.set idx backing), .remove disk_name]⟩) := by
  constructor <;> intro hfs <;>
    (simp only [snapshot_ops]; rw [hb]; simp [hfs])

/-- Witness for claim C4's theorem: discarding the overlay `ov.qcow2`
backed by an existing `base.qcow2` persists the repointed list and then
removes the overlay. -/
theorem discard_repoints_before_delete_witness :
    snapshot_ops (fun _ => true) "/d".toList ["ov.qcow2".toList] 0
      "ov.qcow2".toList
      (some [("backing-filename".toList, "base.qcow2".toList)]) 'd' true
      = ⟨["base.qcow2".toList],
         [.save ["base.qcow2".toList], .remove "ov.qcow2".toList]⟩ :=
  (discard_repoints_before_delete (fun _ => true) "/d".toList
    ["ov.qcow2".toList] 0 "ov.qcow2".toList "base.qcow2".toList
    [("backing-filename".toList, "base.qcow2".toList)] (by decide)).2 rfl

/-- Claim C5: a confirmed Base → Overlay transition whose intended
overlay filename (`splitext` root plus `.snap.qcow2`) is already occupied
fails without mutating the disk list (and performs no filesystem
action). -/
theorem create_overlay_existing_target_fails (fs : PyStr → Bool)
    (disk_dir : PyStr) (disks : List PyStr) (idx : Nat)
    (disk_name : PyStr) (inf : QDiskInfo)
    (hbase : dictGet? "backing-filename".toList inf = none)
    (hexists : fs (pathJoin disk_dir
      (splitext_root disk_name ++ ".snap.qcow2".toList)) = true) :
    snapshot_ops fs disk_dir disks idx disk_name (some inf) 'c' true
      = ⟨disks, []⟩ := by
  simp only [snapshot_ops]
  rw [hbase]
  simp
  simpa using hexists

/-- Witness for claim C5's theorem: creating an overlay for `sys.qcow2`
when `sys.snap.qcow2` already exists leaves the list `[sys.qcow2]`
untouched. -/
theorem create_overlay_existing_target_fails_witness :
    snapshot_ops (fun _ => true) "/d".toList ["sys.qcow2".toList] 0
      "sys.qcow2".toList (some []) 'c' true
      = ⟨["sys.qcow2".toList], []⟩ :=
  create_overlay_existing_target_fails (fun _ => true) "/d".toList
    ["sys.qcow2".toList] 0 "sys.qcow2".toList [] (by decide) rfl

/-- Claim C8: a missing disk file or a failing/unparseable inspector run
makes `get_disk_info` return the explicit unknown outcome `none` (distinct
from any `some` classification, in particular Base), and `snapshot_ops`
refuses every operation on `none`: the disk list is unchanged and no
filesystem event happens. -/
theorem unknown_info_refuses_ops :
    (∀ (fs : PyStr → Bool) (inspect : PyStr → Option QDiskInfo)
        (disk_dir disk_name : PyStr),
      fs (pathJoin disk_dir disk_name) = false →
        get_disk_info fs inspect disk_dir disk_name = none)
    ∧ (∀ (fs : PyStr → Bool) (inspect : PyStr → Option QDiskInfo)
        (disk_dir disk_name : PyStr),
      inspect (pathJoin disk_dir disk_name) = none →
        get_disk_info fs inspect disk_dir disk_name = none)
    ∧ (∀ (fs : PyStr → Bool) (disk_dir : PyStr) (disks : List PyStr)
        (idx : Nat) (disk_name : PyStr) (op : Char) (confirm : Bool),
      snapshot_ops fs disk_dir disks idx disk_name none op confirm
        = ⟨disks, []⟩) := by
  refine ⟨?_, ?_, ?_⟩
  · intro fs inspect disk_dir disk_name h
    simp [get_disk_info, h]
  · intro fs inspect disk_dir disk_name h
    simp [get_disk_info, h]
  · intro fs disk_dir disks idx disk_name op confirm
    rfl

/-- Witness for claim C8's theorem: a missing disk file classifies as
unknown, and snapshot operations on unknown do nothing. -/
theorem unknown_info_refuses_ops_witness :
    get_disk_info (fun _ => false) (fun _ => some []) "/d".toList
        "gone.qcow2".toList = none
    ∧ snapshot_ops (fun _ => true) "/d".toList ["gone.qcow2".toList] 0
        "gone.qcow2".toList none 'd' true
        = ⟨["gone.qcow2".toList], []⟩ :=
  ⟨unknown_info_refuses_ops.1 (fun _ => false) (fun _ => some [])
      "/d".toList "gone.qcow2".toList rfl,
    unknown_info_refuses_ops.2.2 (fun _ => true) "/d".toList
      ["gone.qcow2".toList] 0 "gone.qcow2".toList 'd' true⟩

/-! ### Claim theorems: resource import -/

/-- Counterexample to claim C6 as stated: importing a disk whose basename
already exists in the disk directory and declining the overwrite performs
no copy (`copied = false`), yet the filename is still appended to the
session's disk list. -/
theorem import_decline_overwrite_adds_cex :
    (manage_disk_import ⟨[], [], [], []⟩
        (sessionPaths "/root".toList "vm".toList) (fun p => p)
        (fun _ => true) "/src/d.qcow2".toList false false).2.copied = false
    ∧ (manage_disk_import ⟨[], [], [], []⟩
        (sessionPaths "/root".toList "vm".toList) (fun p => p)
        (fun _ => true) "/src/d.qcow2".toList false false).1.disks
        = ["d.qcow2".toList] := by decide

/-- Claim C6 (amended): the imported filename is appended to the disk
(resp. ISO) list exactly when `import_resource` returns it; a filename is
returned without a successful copy exactly on the decline-overwrite path,
where the file already exists in the resource directory; and on copy
failure (outside that path) nothing is returned, so the list is
unchanged. -/
theorem import_adds_iff_copied_or_existing (s : SessionState)
    (p : SessionPaths) (expand : PyStr → PyStr) (fs : PyStr → Bool)
    (src : PyStr) (oY cOk : Bool) :
    ((manage_disk_import s p expand fs src oY cOk).1.disks
      = s.disks
        ++ ((import_resource expand fs src p.disk_dir oY cOk).result).toList)
    ∧ ((manage_cdrom_import s p expand fs src oY cOk).1.isos
      = s.isos
        ++ ((import_resource expand fs src p.iso_dir oY cOk).result).toList)
    ∧ (∀ dir : PyStr,
        ((import_resource expand fs src dir oY cOk).copied = false ∧
          (import_resource expand fs src dir oY cOk).result ≠ none)
        ↔ (src ≠ [] ∧ fs (expand src) = true ∧
            fs (pathJoin dir (basename (expand src))) = true ∧ oY = false))
    ∧ (∀ dir : PyStr, cOk = false →
        (fs (pathJoin dir (basename (expand src))) = false ∨ oY = true) →
        (import_resource expand fs src dir oY cOk).result = none) := by
  refine ⟨?_, ?_, ?_, ?_⟩
  · cases h : (import_resource expand fs src p.disk_dir oY cOk).result <;>
      simp [manage_disk_import, h]
  · cases h : (import_resource expand fs src p.iso_dir oY cOk).result <;>
      simp [manage_cdrom_import, h]
  · intro dir
    by_cases h1 : src = [] <;>
      by_cases h2 : fs (expand src) = true <;>
        by_cases h3 : fs (pathJoin dir (basename (expand src))) = true <;>
          cases oY <;> cases cOk <;>
            simp [import_resource, h1, h2, h3]
  · intro dir hc hcase
    subst hc
    by_cases h1 : src = [] <;>
      by_cases h2 : fs (expand src) = true <;>
        cases hcase with
        | inl h3 => simp [import_resource, h1, h2, h3]
        | inr h4 => subst h4; simp [import_resource, h1, h2]

/-- Witness for claim C6's amended theorem: an import whose copy fails
(destination absent, `shutil.copy2` error) returns no filename. -/
theorem import_adds_iff_copied_or_existing_witness :
    (import_resource (fun p => p)
      (fun p => decide (p = "/src/d.qcow2".toList)) "/src/d.qcow2".toList
      "/root/vm/disks".toList false false).result = none :=
  (import_adds_iff_copied_or_existing ⟨[], [], [], []⟩
      (sessionPaths "/root".toList "vm".toList) (fun p => p)
      (fun p => decide (p = "/src/d.qcow2".toList)) "/src/d.qcow2".toList
      false false).2.2.2 "/root/vm/disks".toList rfl (Or.inl (by decide))

/-! ### Claim theorems: transition ordering and the persisted-reference
invariant -/

/-- Recognizes config-persisting events. -/
def isSaveEv : Ev → Bool
  | .save _ => true
  | _ => false

/-- The reset transition on the concrete overlay `ov.qcow2` backed by
`base.qcow2`. -/
def resetCexOps : OpResult :=
  snapshot_ops (fun _ => true) "/d".toList ["ov.qcow2".toList] 0
    "ov.qcow2".toList
    (some [("backing-filename".toList, "base.qcow2".toList)]) 'r' true

/-- World in which the reset counterexample runs: overlay and base exist,
the persisted list names the overlay. -/
def resetCexWorld : World :=
  ⟨["ov.qcow2".toList, "base.qcow2".toList], ["ov.qcow2".toList]⟩

/-- Counterexample to claim C3 as stated: the confirmed Reset transition
deletes the overlay and only then recreates it — its event trace contains
no persist (`save`) event at all, and after its first step the persisted
disk list references a file that no longer exists. -/
theorem reset_breaks_persist_invariant_cex :
    resetCexOps.events
      = [.remove "ov.qcow2".toList,
         .imgCreateBacked "base.qcow2".toList "ov.qcow2".toList]
    ∧ resetCexOps.events.all (fun e => !(isSaveEv e))
    ∧ okW resetCexWorld
    ∧ ¬ okW (applyEvents resetCexWorld (resetCexOps.events.take 1)) := by
  decide

/-- Claim C3 (amended): the disk-list-mutating transitions persist the
list immediately adjacent to their filesystem operation in the safe order
— create-overlay creates the file and then persists, discard persists and
then deletes — so along their whole event traces the persisted config
only references existing files (for discard, provided the overlay name
does not survive in the repointed list); commit neither mutates nor
persists the list and trivially keeps the invariant.  Reset is excluded:
it deletes and recreates without persisting (see the counterexample). -/
theorem transitions_persist_safely (fs : PyStr → Bool) (disk_dir : PyStr)
    (w : World) (disks : List PyStr) (idx : Nat) (disk_name : PyStr)
    (inf : QDiskInfo) (hsaved : w.saved = disks) (hok : okW w) :
    (dictGet? "backing-filename".toList inf = none →
      fs (pathJoin disk_dir
        (splitext_root disk_name ++ ".snap.qcow2".toList)) = false →
      snapshot_ops fs disk_dir disks idx disk_name (some inf) 'c' true
        = ⟨disks.set idx (splitext_root disk_name ++ ".snap.qcow2".toList),
           [.imgCreateBacked disk_name
              (splitext_root disk_name ++ ".snap.qcow2".toList),
            .save (disks.set idx
              (splitext_root disk_name ++ ".snap.qcow2".toList))]⟩
      ∧ ∀ n, okW (applyEvents w
          ([Ev.imgCreateBacked disk_name
              (splitext_root disk_name ++ ".snap.qcow2".toList),
            Ev.save (disks.set idx
              (splitext_root disk_name ++ ".snap.qcow2".toList))].take n)))
    ∧ (∀ backing,
      dictGet? "backing-filename".toList inf = some backing →
      fs (pathJoin disk_dir backing) = true →
      backing ∈ w.files →
      disk_name ∉ disks.set idx backing →
      snapshot_ops fs disk_dir disks idx disk_name (some inf) 'd' true
        = ⟨disks.set idx backing,
           [.save (disks.set idx backing), .remove disk_name]⟩
      ∧ ∀ n, okW (applyEvents w
          ([Ev.save (disks.set idx backing),
            Ev.remove disk_name].take n)))
    ∧ (∀ backing,
      dictGet? "backing-filename".toList inf = some backing →
      snapshot_ops fs disk_dir disks idx disk_name (some inf) 'c' true
        = ⟨disks, [.imgCommit disk_name]⟩
      ∧ ∀ n, okW (applyEvents w ([Ev.imgCommit disk_name].take n))) := by
  refine ⟨?_, ?_, ?_⟩
  · intro hb hfs
    constructor
    · simp only [snapshot_ops]
      rw [hb]
      simp
      simpa using hfs
    · intro n
      rcases n with _ | _ | n
      · simpa [applyEvents] using hok
      · show okW { w with files :=
          (splitext_root disk_name ++ ".snap.qcow2".toList) :: w.files }
        intro d hd
        exact List.mem_cons_of_mem _ (hok d hd)
      · simp only [List.take_succ_cons, List.take_nil]
        show okW
          { files :=
              (splitext_root disk_name ++ ".snap.qcow2".toList) :: w.files,
            saved := disks.set idx
              (splitext_root disk_name ++ ".snap.qcow2".toList) }
        intro d hd
        rcases List.mem_or_eq_of_mem_set hd with h | h
        · exact List.mem_cons_of_mem _ (hok d (hsaved.symm ▸ h))
        · exact h ▸ List.mem_cons_self _ _
  · intro backing hb hfs hbmem hnot
    constructor
    · simp only [snapshot_ops]
      rw [hb]
      simp [hfs]
    · intro n
      rcases n with _ | _ | n
      · simpa [applyEvents] using hok
      · show okW { w with saved := disks.set idx backing }
        intro d hd
        rcases List.mem_or_eq_of_mem_set hd with h | h
        · exact hok d (hsaved.symm ▸ h)
        · exact h ▸ hbmem
      · simp only [List.take_succ_cons, List.take_nil]
        show okW { files := w.files.erase disk_name,
                   saved := disks.set idx backing }
        intro d hd
        have hdne : d ≠ disk_name := fun he => hnot (he ▸ hd)
        rw [List.mem_erase_of_ne hdne]
        rcases List.mem_or_eq_of_mem_set hd with h | h
        · exact hok d (hsaved.symm ▸ h)
        · exact h ▸ hbmem
  · intro backing hb
    constructor
    · simp only [snapshot_ops]
      rw [hb]
      simp
    · intro n
      rcases n with _ | n
      · simpa [applyEvents] using hok
      · simpa [applyEvents, stepW] using hok

/-- Witness for claim C3's amended theorem: running the discard case on a
world holding `ov.qcow2` and `base.qcow2` keeps the persisted-reference
invariant through the whole trace. -/
theorem transitions_persist_safely_witness :
    okW (applyEvents ⟨["ov.qcow2".toList, "base.qcow2".toList],
        ["ov.qcow2".toList]⟩
      ([Ev.save [ "base.qcow2".toList ], Ev.remove "ov.qcow2".toList].take
        2)) :=
  ((transitions_persist_safely (fun _ => true) "/d".toList
      ⟨["ov.qcow2".toList, "base.qcow2".toList], ["ov.qcow2".toList]⟩
      ["ov.qcow2".toList] 0 "ov.qcow2".toList
      [("backing-filename".toList, "base.qcow2".toList)] rfl
      (by decide)).2.1 "base.qcow2".toList (by decide) rfl (by decide)
      (by decide)).2 2

/-- Claim C1: the virtio-blk device entries of the synthesized argument
vector (the arguments following a `-device` flag that name a
`virtio-blk-pci` device) are exactly one entry per disk whose resolved
file exists, in list order, each carrying serial `DISK_i` and
`bootindex = i + 1` for the disk's 0-based position `i` in the *full*
disk list — positions are not renumbered after missing disks are
skipped. -/
theorem build_command_virtio_blk_devices (p : SessionPaths)
    (s : SessionState) (ovmf_code : PyStr) (fs : FSModel) :
    virtioBlkDevices (build_command p s ovmf_code fs)
      = ((List.enumFrom 0 s.disks).filter
          (fun iv => fs.ex (pathJoin p.disk_dir iv.2))).map
          (fun iv => virtioBlkDeviceStr iv.1) := by
  unfold build_command
  simp only [List.cons_append, List.nil_append, List.append_assoc]
  rw [vbds_cons_of_ne_device _ _ (by decide)]
  rw [vbds_cons_of_ne_device _ _ (by decide)]
  rw [vbds_skip_pair _ _ _ (by decide)]
  rw [vbds_cons_of_ne_device _ _ (by decide)]
  rw [vbds_cons_of_ne_device _ _ (by decide)]
  rw [vbds_cons_of_ne_device _ _ (by decide)]
  rw [vbds_cons_of_ne_device _ _ (by decide)]
  rw [vbds_cons_of_ne_device _ _ (by decide)]
  rw [vbds_cons_of_ne_device _ _ (by decide)]
  rw [vbds_cons_of_ne_device _ _ (by decide)]
  rw [vbds_cons_of_ne_device _ _ (by decide)]
  rw [vbds_cons_of_ne_device _ _ (by decide)]
  rw [vbds_skip_pair _ _ _ (by decide)]
  rw [vbds_cons_of_ne_device _ _ (by decide)]
  rw [vbds_skip_pair _ _ _ (by decide)]
  rw [vbds_cons_of_ne_device _ _ (by decide)]
  rw [vbds_cons_pflash1]
  rw [vbds_cons_of_ne_device _ _ (by decide)]
  rw [vbds_cons_pflash2]
  rw [vbds_skip_pair _ _ _ (by decide)]
  rw [vbds_cons_of_ne_device _ _ (by decide)]
  rw [vbds_skip_pair _ _ _ (by decide)]
  rw [vbds_cons_of_ne_device _ _ (by decide)]
  rw [vbds_skip_pair _ _ _ (by decide)]
  rw [vbds_cons_of_ne_device _ _ (by decide)]
  rw [vbds_skip_pair _ _ _ (by decide)]
  rw [vbds_cons_of_ne_device _ _ (by decide)]
  rw [vbds_skip_pair _ _ _ (by decide)]
  rw [vbds_cons_of_ne_device _ _ (by decide)]
  rw [vbds_skip_pair _ _ _ (by decide)]
  rw [vbds_cons_of_ne_device _ _ (by decide)]
  rw [vbds_skip_pair _ _ _ (by decide)]
  rw [vbds_cons_of_ne_device _ _ (by decide)]
  rw [vbds_skip_pair _ _ _ (by decide)]
  rw [vbds_cons_of_ne_device _ _ (by decide)]
  rw [vbds_skip_pair _ _ _ (by decide)]
  rw [vbds_cons_of_ne_device _ _ (by decide)]
  rw [vbds_cons_of_ne_device _ _ (by decide)]
  rw [vbds_cons_of_ne_device _ _ (by decide)]
  rw [vbds_skip_pair _ _ _ (by decide)]
  rw [vbds_cons_of_ne_device _ _ (by decide)]
  rw [vbds_skip_pair _ _ _ (by decide)]
  rw [vbds_cons_of_ne_device _ _ (by decide)]
  rw [vbds_skip_pair _ _ _ (by decide)]
  rw [vbds_cons_of_ne_device _ _ (by decide)]
  rw [vbds_cons_of_ne_device _ _ (by decide)]
  rw [vbds_cons_of_ne_device _ _ (by decide)]
  rw [vbds_diskArgs]
  rw [vbds_isoArgs]
  rw [vbds_sharedArgs]
  rw [vbds_transientArgs]
  exact List.append_nil _

/-! ### Claim theorems: save/load round trip -/

/-- The concrete session whose CPU_CORES value is wrapped in single
quotes, used to refute the round-trip claim as stated. -/
def quoteCexSession : SessionState :=
  ⟨[("CPU_CORES".toList, sq :: '4' :: [sq]),
    ("MEM_SIZE".toList, "8G".toList)], [], [], []⟩

/-- Counterexample to claim C2 as stated: the value `'4'` (single-quoted,
containing no double-quote character, so it satisfies the claim's
hypothesis) does not survive the save/load round trip — `load` strips the
single quotes and returns `4`. -/
theorem save_load_roundtrip_quote_cex :
    (sq :: '4' :: [sq]).contains dq = false
    ∧ dictGet? "CPU_CORES".toList
        ((Session.load quoteCexSession true
          (Session.save quoteCexSession)).1.config) = some ['4']
    ∧ (some ['4'] : Option PyStr) ≠ some (sq :: '4' :: [sq]) := by
  decide

/-- Claim C2 (amended): for a session whose scalar config is exactly
`{CPU_CORES: c, MEM_SIZE: m}`, saving and re-loading returns the same two
values, provided the values contain no double quote, no newline and no
carriage return, and neither begins nor ends with a single quote (the
extra conditions the unescaped `KEY="VALUE"` format and the
`strip('\x22').strip('\x27')` of `load` force). -/
theorem save_load_roundtrip_cpu_mem (c m : PyStr)
    (hc_dq : ∀ x ∈ c, ¬ x = dq) (hm_dq : ∀ x ∈ m, ¬ x = dq)
    (hc_nl : ∀ x ∈ c, ¬ x = nl) (hm_nl : ∀ x ∈ m, ¬ x = nl)
    (_hc_cr : ∀ x ∈ c, ¬ x = Char.ofNat 13)
    (_hm_cr : ∀ x ∈ m, ¬ x = Char.ofNat 13)
    (hc_sq1 : ∀ a, c.head? = some a → ¬ a = sq)
    (hc_sq2 : ∀ a, c.getLast? = some a → ¬ a = sq)
    (hm_sq1 : ∀ a, m.head? = some a → ¬ a = sq)
    (hm_sq2 : ∀ a, m.getLast? = some a → ¬ a = sq) :
    dictGet? "CPU_CORES".toList
      ((Session.load
        ⟨[("CPU_CORES".toList, c), ("MEM_SIZE".toList, m)], [], [], []⟩
        true
        (Session.save
          ⟨[("CPU_CORES".toList, c), ("MEM_SIZE".toList, m)],
            [], [], []⟩)).1.config) = some c
    ∧ dictGet? "MEM_SIZE".toList
      ((Session.load
        ⟨[("CPU_CORES".toList, c), ("MEM_SIZE".toList, m)], [], [], []⟩
        true
        (Session.save
          ⟨[("CPU_CORES".toList, c), ("MEM_SIZE".toList, m)],
            [], [], []⟩)).1.config) = some m := by
  have hsave : Session.save
      ⟨[("CPU_CORES".toList, c), ("MEM_SIZE".toList, m)], [], [], []⟩
      = confLine "CPU_CORES".toList c ++ confLine "MEM_SIZE".toList m := by
    simp [Session.save]
  have hlines : pySplitChar nl
      (confLine "CPU_CORES".toList c ++ confLine "MEM_SIZE".toList m)
      = ("CPU_CORES".toList ++ ('=' :: (dq :: (c ++ [dq]))))
        :: ("MEM_SIZE".toList ++ ('=' :: (dq :: (m ++ [dq])))) :: [[]] := by
    rw [pySplit_confLine _ _ _ (by decide) hc_nl]
    rw [pySplit_confLine_last _ _ (by decide) hm_nl]
  have hparse : parseConfig (Session.save
      ⟨[("CPU_CORES".toList, c), ("MEM_SIZE".toList, m)], [], [], []⟩)
      = ⟨[("CPU_CORES".toList, c), ("MEM_SIZE".toList, m)], [], []⟩ := by
    unfold parseConfig
    rw [hsave, hlines, List.foldl_cons, List.foldl_cons, List.foldl_cons,
      List.foldl_nil]
    rw [processLine_scalar _ _ _ (by decide) (by decide) (by decide)
      (by decide) hc_dq hc_sq1 hc_sq2]
    rw [processLine_scalar _ _ _ (by decide) (by decide) (by decide)
      (by decide) hm_dq hm_sq1 hm_sq2]
    rw [processLine_nil]
    simp [dictSet]
  constructor
  · simp only [Session.load, if_pos]
    rw [hparse]
    simp [dictGet?]
  · simp only [Session.load, if_pos]
    rw [hparse]
    simp [dictGet?]

/-- Witness for claim C2's amended theorem at `c = "4"`, `m = "8G"`. -/
theorem save_load_roundtrip_cpu_mem_witness :
    dictGet? "CPU_CORES".toList
      ((Session.load
        ⟨[("CPU_CORES".toList, "4".toList), ("MEM_SIZE".toList,
          "8G".toList)], [], [], []⟩ true
        (Session.save
          ⟨[("CPU_CORES".toList, "4".toList), ("MEM_SIZE".toList,
            "8G".toList)], [], [], []⟩)).1.config) = some "4".toList :=
  (save_load_roundtrip_cpu_mem "4".toList "8G".toList (by decide)
    (by decide) (by decide) (by decide) (by decide) (by decide)
    (by decide) (by decide) (by decide) (by decide)).1

end QemuHelper
